import Mathlib

/-!
Verification development for a two-pipeline document-intelligence tool.

The embedding models the Python sources faithfully over `List Char`
(ASCII model of Python strings):

* `StructureExtractor` (outline pipeline): `refineSections`,
  `calcImportance`, `determineLevel`, `fallbackExtractLabels`,
  `extractTitleFromText`, `extractTitle`, `extractStructure`.
* `PersonaAnalyzer` (relevance pipeline): `extractKeywords`,
  `calcRelevanceScore`, `domainBonuses`, `extractSectionContent`,
  `looksLikeHeading`, `enrichSections`, `extractRelevantSections`,
  `extractDocumentContents`.

The external PDF loader (out of scope in the sources) is modelled by the
`Loader` / `DocState` records carrying the values the code reads from it.
-/

namespace Adobe1B

attribute [local semireducible] Rat.add Rat.mul Rat.inv Rat.sub Rat.ofScientific

/-- Strings are modelled as lists of characters (ASCII model of Python str). -/
abbrev Str := List Char

/-- Conversion from Lean string literals to the model type. -/
def str (s : String) : Str := s.toList

/-- The whitespace characters of Python str.strip / str.split (ASCII). -/
def wsChars : Str := [' ', '\t', '\n', '\r', Char.ofNat 11, Char.ofNat 12]

/-- Python whitespace test (ASCII). -/
def isWS (c : Char) : Bool := decide (c ∈ wsChars)

/-- The ASCII uppercase letters. -/
def upperChars : Str := str "ABCDEFGHIJKLMNOPQRSTUVWXYZ"

/-- The ASCII lowercase letters. -/
def lowerChars : Str := str "abcdefghijklmnopqrstuvwxyz"

/-- The ASCII digits. -/
def digitChars : Str := str "0123456789"

/-- ASCII uppercase test, the regex class [A-Z]. -/
def isUpperA (c : Char) : Bool := decide (c ∈ upperChars)

/-- ASCII lowercase test, the regex class [a-z]. -/
def isLowerA (c : Char) : Bool := decide (c ∈ lowerChars)

/-- ASCII digit test, the regex class \d. -/
def isDigitA (c : Char) : Bool := decide (c ∈ digitChars)

/-- ASCII letter test, the regex class [a-zA-Z]. -/
def isAlphaA (c : Char) : Bool := isUpperA c || isLowerA c

/-- Regex word-character test \w (ASCII): letter, digit or underscore. -/
def isWordChar (c : Char) : Bool := isAlphaA c || isDigitA c || c == '_'

/-- ASCII lowercasing of one character, as Python str.lower does per char. -/
def toLowerA (c : Char) : Char :=
  if c ∈ upperChars then Char.ofNat (c.toNat + 32) else c

/-- Python str.lower (ASCII model). -/
def pyLower (s : Str) : Str := s.map toLowerA

/-- Python str.strip(): drop leading and trailing whitespace. -/
def pyStrip (s : Str) : Str := List.rdropWhile isWS (List.dropWhile isWS s)

/-- Python str.isupper (ASCII): some cased character and no lowercase one. -/
def pyIsUpper (s : Str) : Bool := s.any isAlphaA && s.all (fun c => !isLowerA c)

/-- Python s.endswith(":"). -/
def endsWithColon (s : Str) : Bool := s.reverse.head? == some ':'

/-- Python s.startswith(p), also the regex prefix test for a literal. -/
def pyStartswith (p s : Str) : Bool := s.take p.length == p

/-- Python substring membership: `needle in hay`. -/
def containsSub (n : Str) : Str → Bool
  | [] => n == []
  | c :: r => ((c :: r).take n.length == n) || containsSub n r

/-- Python text.split(chr 10): split at every newline, keeping empty parts. -/
def splitLinesAux (acc : Str) : Str → List Str
  | [] => [acc.reverse]
  | c :: r => if c == '\n' then acc.reverse :: splitLinesAux [] r
              else splitLinesAux (c :: acc) r

/-- Python text.split(chr 10) on a whole text. -/
def splitLines (s : Str) : List Str := splitLinesAux [] s

/-- Accumulator loop for Python str.split() (split on whitespace runs). -/
def pyWordsAux (acc : Str) : Str → List Str
  | [] => if acc = [] then [] else [acc.reverse]
  | c :: r => if isWS c then
                (if acc = [] then pyWordsAux [] r else acc.reverse :: pyWordsAux [] r)
              else pyWordsAux (c :: acc) r

/-- Python str.split(): the maximal non-whitespace runs of a string. -/
def pyWords (s : Str) : List Str := pyWordsAux [] s

/-- Python s.rstrip(":"): drop every trailing colon. -/
def rstripColon (s : Str) : Str := List.rdropWhile (fun c => c == ':') s

/-- A candidate heading line as delivered by the external extractor. -/
structure RawCand where
  text : Str
  page : Nat
deriving Repr, DecidableEq

/-- An accepted heading record of the outline. -/
structure HeadingRecord where
  level : Str
  text : Str
  page : Nat
deriving Repr, DecidableEq, Inhabited

/-- Test for three uppercase letters at the head of the rest, [A-Z]{3,}. -/
def upper3 : Str → Bool
  | a :: b :: c :: _ => isUpperA a && isUpperA b && isUpperA c
  | _ => false

/-- A space followed by three uppercase letters, the tail of the date
pattern after two digits. -/
def spaceThenUpper3 : Str → Bool
  | [] => false
  | c2 :: r2 => c2 == ' ' && upper3 r2

/-- The regex alternative \d{1,2} [A-Z]{3,} anchored at the string start. -/
def matchDigitsUpper : Str → Bool
  | c0 :: c1 :: rest =>
      isDigitA c0 &&
        ((isDigitA c1 && spaceThenUpper3 rest) || (c1 == ' ' && upper3 rest))
  | _ => false

/-- The noise filter of _refine_sections, applied to the lowercased text:
the regex (page|figure|table|ref|www\.|http|\d{1,2} [A-Z]{3,}) anchored at
the start. -/
def noiseFilter (tl : Str) : Bool :=
  pyStartswith (str "page") tl || pyStartswith (str "figure") tl ||
  pyStartswith (str "table") tl || pyStartswith (str "ref") tl ||
  pyStartswith (str "www.") tl || pyStartswith (str "http") tl ||
  matchDigitsUpper tl

/-- The high-importance phrase list of _calculate_importance. -/
def highTerms : List Str :=
  [str "revision history", str "table of contents", str "acknowledgements",
   str "introduction", str "overview", str "syllabus"]

/-- Faithful model of StructureExtractor._calculate_importance. -/
def calcImportance (text : Str) : Nat :=
  let tl := pyLower text
  if highTerms.any (fun t => containsSub t tl) then 2
  else if endsWithColon text && decide ((pyWords text).length ≤ 8) then 1
  else if pyIsUpper text && decide (5 < text.length) && decide (text.length < 60) then 1
  else 0

/-- The H1 trigger phrases of _determine_level. -/
def h1Terms : List Str := [str "overview of", str "introduction to", str "references"]

/-- Faithful model of StructureExtractor._determine_level. -/
def determineLevel (text : Str) : Str :=
  let tl := pyLower text
  if h1Terms.any (fun k => containsSub k tl) then str "H1"
  else if endsWithColon text && decide ((pyWords text).length ≤ 8) then str "H2"
  else str "H2"

/-- The loop of StructureExtractor._refine_sections with its seen-set. -/
def refineGo : List RawCand → List Str → List HeadingRecord
  | [], _ => []
  | sec :: rest, seen =>
    let text := pyStrip sec.text
    if text ∈ seen ∨ ¬ (3 ≤ text.length ∧ text.length ≤ 150) then refineGo rest seen
    else if noiseFilter (pyLower text) then refineGo rest seen
    else if calcImportance text = 0 then refineGo rest seen
    else ⟨determineLevel text, text, sec.page⟩ :: refineGo rest (text :: seen)

/-- Faithful model of StructureExtractor._refine_sections. -/
def refineSections (secs : List RawCand) : List HeadingRecord := refineGo secs []

/-- Faithful model of StructureExtractor._fallback_extract_labels. -/
def fallbackExtractLabels (text : Str) : List HeadingRecord :=
  (splitLines text).filterMap (fun l =>
    let line := pyStrip l
    if endsWithColon line ∧ (pyWords line).length ≤ 8 then
      some ⟨str "H2", rstripColon line, 1⟩
    else none)

/-- Stable descending insertion by a key: the new element is placed before
the first element whose key is not larger.  This is the behaviour of Python
list.sort(key=..., reverse=True) on ties (earlier elements stay first). -/
def insertDesc {α β : Type} [LinearOrder β] (key : α → β) (a : α) : List α → List α
  | [] => [a]
  | b :: l => if key b ≤ key a then a :: b :: l else b :: insertDesc key a l

/-- Stable descending sort by a key, modelling Python list.sort(reverse=True). -/
def sortDesc {α β : Type} [LinearOrder β] (key : α → β) : List α → List α
  | [] => []
  | a :: l => insertDesc key a (sortDesc key l)

/-- The promotional keyword list of _extract_title_from_text. -/
def promoWords : List Str := [str "challenge", str "connecting", str "dots", str "hackathon"]

/-- The skip-line regex alternatives of _extract_title_from_text. -/
def titleSkip : List Str :=
  [str "page", str "abstract", str "introduction", str "table of contents",
   str "www.", str "http"]

/-- Faithful model of StructureExtractor._extract_title_from_text. -/
def extractTitleFromText (text : Str) : Str :=
  let lines := (splitLines text).filterMap (fun l =>
    let t := pyStrip l
    if 5 < t.length ∧ t.length < 200 then some t else none)
  let cands := (lines.take 15).enum.filterMap (fun p =>
    if titleSkip.any (fun pre => pyStartswith pre (pyLower p.2)) then none
    else
      let score : Int :=
        (if promoWords.any (fun w => containsSub w (pyLower p.2)) then 3 else 0)
        + (if p.1 < 5 then 2 else 0)
        + (if 10 ≤ p.2.length ∧ p.2.length ≤ 100 then 1 else 0)
      some (p.2, score))
  match sortDesc (fun c => c.2) cands with
  | [] => []
  | c :: _ => c.1

/-- The values the outline pipeline reads from the external PDF loader. -/
structure Loader where
  loadOk : Bool
  sections : List RawCand
  page0Text : Str
  metaTitle : Str
  titleCandidates : List (Str × Int)
deriving Repr, DecidableEq

/-- Faithful model of StructureExtractor._extract_title. -/
def extractTitle (L : Loader) (outline : List HeadingRecord) : Str :=
  let metadataTitle := pyStrip L.metaTitle
  if metadataTitle ≠ [] ∧ 3 < metadataTitle.length then metadataTitle
  else if L.titleCandidates ≠ [] then
    List.intercalate (str "  ") ((L.titleCandidates.take 2).map (fun c => c.1))
  else
    let titleFromText := extractTitleFromText L.page0Text
    if titleFromText ≠ [] then titleFromText
    else match outline with
      | [] => str "Untitled Document"
      | h :: _ => h.text

/-- The result object of the single-document pipeline. -/
structure StructResult where
  title : Str
  outline : List HeadingRecord
  error : Option Str
deriving Repr, DecidableEq

/-- Faithful model of StructureExtractor.extract_structure. -/
def extractStructure (L : Loader) : StructResult :=
  if ¬ L.loadOk then ⟨str "Error", [], some (str "Failed to load PDF")⟩
  else
    let refined := refineSections L.sections
    let outline := if refined = [] then fallbackExtractLabels L.page0Text else refined
    ⟨extractTitle L outline, outline, none⟩

/-- Part of the regex \s+[A-Z]: more whitespace, then an uppercase letter. -/
def afterWS : Str → Bool
  | [] => false
  | c :: r => if isWS c then afterWS r else isUpperA c

/-- The regex fragment \s+[A-Z]: at least one whitespace then uppercase. -/
def wsThenUpper : Str → Bool
  | [] => false
  | c :: r => isWS c && afterWS r

/-- The regex ^\d+\.?\s+[A-Z] after its first digit. -/
def numTail : Str → Bool
  | [] => false
  | c :: r => if isDigitA c then numTail r
              else if c == '.' then wsThenUpper r
              else wsThenUpper (c :: r)

/-- The numbered-heading regex ^\d+\.?\s+[A-Z] (prefix match). -/
def matchNumbered : Str → Bool
  | [] => false
  | c :: r => isDigitA c && numTail r

/-- The all-caps regex ^[A-Z][A-Z\s]+$ (full match). -/
def matchAllCaps : Str → Bool
  | [] => false
  | c :: rest => isUpperA c && decide (rest ≠ []) && rest.all (fun d => isUpperA d || isWS d)

/-- DFA for the tail of the title-case regex [a-z]+(?:\s+[A-Z][a-z]+)*$ .
State 0 expects the first lowercase of a word, state 1 is inside the
lowercase run, state 2 is inside a whitespace separator. -/
def tcRun : Nat → Str → Bool
  | 0, [] => false
  | 0, c :: r => isLowerA c && tcRun 1 r
  | 1, [] => true
  | 1, c :: r => if isLowerA c then tcRun 1 r else if isWS c then tcRun 2 r else false
  | 2, [] => false
  | 2, c :: r => if isWS c then tcRun 2 r else isUpperA c && tcRun 0 r
  | _ + 3, _ => false

/-- The title-case regex ^[A-Z][a-z]+(?:\s+[A-Z][a-z]+)*$ (full match). -/
def matchTitleCase : Str → Bool
  | [] => false
  | c :: r => isUpperA c && tcRun 0 r

/-- Faithful model of PersonaAnalyzer._looks_like_heading. -/
def looksLikeHeading (t : Str) : Bool :=
  if t.length < 3 ∨ 150 < t.length then false
  else matchNumbered t || matchAllCaps t || matchTitleCase t

/-- The end-boundary test of the content-expansion loop: the stripped line
is longer than 3 characters and looks like a heading. -/
def boundaryLine (l : Str) : Bool :=
  let t := pyStrip l
  decide (3 < t.length) && looksLikeHeading t

/-- Faithful model of PersonaAnalyzer._extract_section_content (the index
and section-list parameters of the source are unused there and omitted). -/
def extractSectionContent (pageText : Str) (title : Str) : Str :=
  let lines := splitLines pageText
  match lines.findIdx? (fun line => containsSub (pyLower title) (pyLower line)) with
  | none => []
  | some s =>
    let afterLines := lines.drop (s + 1)
    pyStrip (List.intercalate ['\n'] (afterLines.take (afterLines.findIdx boundaryLine)))

/-- Scanner for the regex findall of \b[a-zA-Z]{3,}\b: `run` is the current
letter run reversed, `blocked` records whether the run is preceded by a
word character (digit or underscore), which defeats the word boundary. -/
def kwAux (run : Str) (blocked : Bool) : Str → List Str
  | [] => if run ≠ [] ∧ ¬ blocked ∧ 3 ≤ run.length then [run.reverse] else []
  | c :: r =>
    if isAlphaA c then kwAux (c :: run) blocked r
    else
      (if run ≠ [] ∧ ¬ blocked ∧ 3 ≤ run.length ∧ ¬ isWordChar c
       then [run.reverse] else []) ++ kwAux [] (isWordChar c) r

/-- The stop-word set of PersonaAnalyzer._extract_keywords. -/
def stopWords : List Str :=
  [str "the", str "and", str "for", str "are", str "but", str "not", str "you",
   str "all", str "can", str "had", str "her", str "was", str "one", str "our",
   str "out", str "day", str "get", str "has", str "him", str "his", str "how",
   str "man", str "new", str "now", str "old", str "see", str "two", str "way",
   str "who", str "boy", str "did", str "its", str "let", str "put", str "say",
   str "she", str "too", str "use", str "with", str "have", str "this", str "will",
   str "your", str "from", str "they", str "know", str "want", str "been",
   str "good", str "much", str "some", str "time", str "very", str "when",
   str "come", str "here", str "just", str "like", str "long", str "make",
   str "many", str "over", str "such", str "take", str "than", str "them",
   str "well", str "were"]

/-- Faithful model of PersonaAnalyzer._extract_keywords.  The Python set of
keywords is modelled as a duplicate-free list. -/
def extractKeywords (text : Str) : List Str :=
  ((kwAux [] false (pyLower text)).filter (fun w => decide (w ∉ stopWords))).eraseDups

/-- Cardinality of the intersection of two keyword sets, the first being
duplicate-free. -/
def interCard (a b : List Str) : Nat := (a.filter (fun w => decide (w ∈ b))).length

/-- A section enriched with its content span (the dict the analyzer scores). -/
structure PSection where
  text : Str
  page : Nat
  content : Str
deriving Repr, DecidableEq

/-- The research persona trigger words. -/
def researchTriggers : List Str := [str "researcher", str "phd", str "academic", str "student"]

/-- The research bonus term list. -/
def researchTerms : List Str :=
  [str "methodology", str "analysis", str "results", str "conclusion", str "abstract",
   str "literature", str "experiment", str "data", str "findings", str "hypothesis"]

/-- The business persona trigger words. -/
def businessTriggers : List Str := [str "analyst", str "investment", str "business"]

/-- The business bonus term list. -/
def businessTerms : List Str :=
  [str "revenue", str "profit", str "growth", str "market", str "financial",
   str "strategy", str "competitive", str "performance", str "roi", str "analysis"]

/-- The educational persona trigger words. -/
def eduTriggers : List Str := [str "student", str "learner", str "education"]

/-- The educational bonus term list. -/
def eduTerms : List Str :=
  [str "concept", str "principle", str "theory", str "example", str "definition",
   str "explanation", str "practice", str "exercise", str "summary"]

/-- Faithful model of PersonaAnalyzer._get_domain_bonuses. -/
def domainBonuses (persona : Str) (text : Str) : ℚ :=
  let pl := pyLower persona
  let b1 : ℚ := if researchTriggers.any (fun w => containsSub w pl)
    then ((researchTerms.filter (fun t => containsSub t text)).length : ℚ) * (5/100) else 0
  let b2 : ℚ := if businessTriggers.any (fun w => containsSub w pl)
    then ((businessTerms.filter (fun t => containsSub t text)).length : ℚ) * (5/100) else 0
  let b3 : ℚ := if eduTriggers.any (fun w => containsSub w pl)
    then ((eduTerms.filter (fun t => containsSub t text)).length : ℚ) * (5/100) else 0
  min (b1 + b2 + b3) (3/10)

/-- Faithful model of PersonaAnalyzer._calculate_relevance_score.  The
persona text the source reads from the instance is passed explicitly. -/
def calcRelevanceScore (persona : Str) (personaKw jobKw : List Str) (sec : PSection) : ℚ :=
  let combined := pyLower sec.text ++ [' '] ++ pyLower sec.content
  let sectionKw := extractKeywords combined
  let personaScore : ℚ := (interCard personaKw sectionKw : ℚ) / (max personaKw.length 1 : ℚ)
  let jobScore : ℚ := (interCard jobKw sectionKw : ℚ) / (max jobKw.length 1 : ℚ)
  min ((6/10) * jobScore + (4/10) * personaScore + domainBonuses persona combined) 1

/-- A kept section still carrying its raw relevance score (the state of
importance_rank before the destructive rank assignment). -/
structure ScoredSection where
  document : Str
  page : Nat
  sectionTitle : Str
  score : ℚ
deriving Repr, DecidableEq

/-- A section of extracted_sections after the rank overwrite. -/
structure RankedSection where
  document : Str
  page : Nat
  sectionTitle : Str
  importanceRank : Nat
deriving Repr, DecidableEq

/-- The per-document record built by _extract_document_contents. -/
structure DocContent where
  filename : Str
  title : Str
  outline : List HeadingRecord
  sections : List PSection
deriving Repr, DecidableEq

/-- Faithful model of PersonaAnalyzer._enrich_sections: a section on an
existing page gets the content span from that page, others get no content. -/
def enrichSections (pageTexts : List Str) (secs : List RawCand) : List PSection :=
  secs.map (fun sec =>
    if sec.page - 1 < pageTexts.length then
      ⟨sec.text, sec.page, extractSectionContent (pageTexts.getD (sec.page - 1) []) sec.text⟩
    else ⟨sec.text, sec.page, []⟩)

/-- The accumulating loop of _extract_relevant_sections: every section of
every document is scored and kept when its score exceeds 0.1. -/
def keptSections (persona job : Str) (docs : List DocContent) : List ScoredSection :=
  let personaKw := extractKeywords persona
  let jobKw := extractKeywords job
  docs.flatMap (fun d => d.sections.filterMap (fun s =>
    let r := calcRelevanceScore persona personaKw jobKw s
    if (1 : ℚ)/10 < r then some ⟨d.filename, s.page, s.text, r⟩ else none))

/-- Faithful model of PersonaAnalyzer._extract_relevant_sections: keep the
sections scoring above 0.1, sort by score descending (stable), then
overwrite the score field with the 1-based position. -/
def extractRelevantSections (persona job : Str) (docs : List DocContent) : List RankedSection :=
  let sorted := sortDesc ScoredSection.score (keptSections persona job docs)
  sorted.enum.map (fun p => ⟨p.2.document, p.2.page, p.2.sectionTitle, p.1 + 1⟩)

/-- The loader values the analyzer reads for one successfully loaded
document: the loader state seen by the structure extractor, the per-page
texts, the raw formatting-based candidates and the full text. -/
structure DocState where
  extLoader : Loader
  pageTexts : List Str
  sections : List RawCand
  fullText : Str
deriving Repr, DecidableEq

/-- Outcome of the external loader for one document of the collection:
load refused, an exception raised somewhere in the per-document body, or a
successful load with the observed loader state. -/
inductive DocOutcome where
  | loadFail
  | raised (msg : Str)
  | ok (st : DocState)
deriving Repr, DecidableEq

/-- The per-document record appended by _extract_document_contents on a
successful load. -/
def buildDoc (name : Str) (st : DocState) : DocContent :=
  let s := extractStructure st.extLoader
  ⟨name, s.title, s.outline, enrichSections st.pageTexts st.sections⟩

/-- Faithful model of PersonaAnalyzer._extract_document_contents: failed or
raising documents are skipped, the remaining ones are processed in order. -/
def extractDocumentContents : List (Str × DocOutcome) → List DocContent
  | [] => []
  | (_, DocOutcome.loadFail) :: rest => extractDocumentContents rest
  | (_, DocOutcome.raised _) :: rest => extractDocumentContents rest
  | (name, DocOutcome.ok st) :: rest => buildDoc name st :: extractDocumentContents rest

theorem insertDesc_perm {α β : Type} [LinearOrder β] (key : α → β) (a : α) (l : List α) :
    List.Perm (insertDesc key a l) (a :: l) := by
  induction l with
  | nil => simp [insertDesc]
  | cons b t ih =>
    unfold insertDesc
    split
    · exact List.Perm.refl _
    · exact (List.Perm.cons b ih).trans (List.Perm.swap a b t)

theorem sortDesc_perm {α β : Type} [LinearOrder β] (key : α → β) (l : List α) :
    List.Perm (sortDesc key l) l := by
  induction l with
  | nil => simp [sortDesc]
  | cons a t ih =>
    unfold sortDesc
    exact (insertDesc_perm key a (sortDesc key t)).trans (List.Perm.cons a ih)

theorem mem_insertDesc {α β : Type} [LinearOrder β] {key : α → β} {a x : α} {l : List α} :
    x ∈ insertDesc key a l ↔ x = a ∨ x ∈ l := by
  rw [(insertDesc_perm key a l).mem_iff]
  simp

theorem insertDesc_pairwise {α β : Type} [LinearOrder β] {key : α → β} {a : α} {l : List α}
    (h : l.Pairwise (fun x y => key y ≤ key x)) :
    (insertDesc key a l).Pairwise (fun x y => key y ≤ key x) := by
  induction l with
  | nil => simp [insertDesc]
  | cons b t ih =>
    rw [List.pairwise_cons] at h
    obtain ⟨hb, ht⟩ := h
    unfold insertDesc
    split
    next hba =>
      rw [List.pairwise_cons]
      refine ⟨?_, List.pairwise_cons.mpr ⟨hb, ht⟩⟩
      intro y hy
      rcases List.mem_cons.mp hy with rfl | hyt
      · exact hba
      · exact le_trans (hb y hyt) hba
    next hba =>
      rw [List.pairwise_cons]
      refine ⟨?_, ih ht⟩
      intro y hy
      rcases mem_insertDesc.mp hy with rfl | hyt
      · exact le_of_not_le hba
      · exact hb y hyt

theorem sortDesc_pairwise {α β : Type} [LinearOrder β] (key : α → β) (l : List α) :
    (sortDesc key l).Pairwise (fun x y => key y ≤ key x) := by
  induction l with
  | nil => simp [sortDesc]
  | cons a t ih =>
    unfold sortDesc
    exact insertDesc_pairwise ih

theorem insertDesc_filter_key {α β : Type} [LinearOrder β] (key : α → β) (q : β)
    (a : α) (l : List α) :
    (insertDesc key a l).filter (fun x => decide (key x = q)) =
      if key a = q then a :: l.filter (fun x => decide (key x = q))
      else l.filter (fun x => decide (key x = q)) := by
  induction l with
  | nil =>
    by_cases hq : key a = q <;> simp [insertDesc, List.filter_cons, hq]
  | cons b t ih =>
    unfold insertDesc
    split
    next hba =>
      by_cases hq : key a = q <;> simp [List.filter_cons, hq]
    next hba =>
      have hab : key a < key b := lt_of_not_le hba
      by_cases hq : key a = q
      · have hbq : ¬ key b = q := by
          intro hbq
          exact absurd (hbq.trans hq.symm) (ne_of_gt (hq ▸ hab))
        simp [List.filter_cons, hbq, ih, hq]
      · by_cases hbq : key b = q <;> simp [List.filter_cons, hbq, ih, hq]

theorem sortDesc_filter_key {α β : Type} [LinearOrder β] (key : α → β) (q : β) (l : List α) :
    (sortDesc key l).filter (fun x => decide (key x = q)) =
      l.filter (fun x => decide (key x = q)) := by
  induction l with
  | nil => rfl
  | cons a t ih =>
    unfold sortDesc
    rw [insertDesc_filter_key]
    by_cases hq : key a = q <;> simp [List.filter_cons, hq, ih]

theorem enumFrom_map_fst_succ {α : Type} (l : List α) : ∀ n : Nat,
    (List.enumFrom n l).map (fun p => p.1 + 1) = List.range' (n + 1) l.length := by
  induction l with
  | nil => intro n; rfl
  | cons a t ih =>
    intro n
    simp only [List.enumFrom_cons, List.map_cons, List.length_cons, List.range'_succ, ih (n + 1)]

theorem getD_drop_eq {α : Type} (l : List α) (n k : Nat) (d : α) :
    (l.drop n).getD k d = l.getD (n + k) d := by
  simp [List.getD_eq_getElem?_getD, List.getElem?_drop]

theorem findIdx_spec_before {α : Type} (p : α → Bool) (l : List α) (j : Nat) (d : α)
    (hj : j < l.findIdx p) : p (l.getD j d) = false := by
  have hlen : j < l.length := lt_of_lt_of_le hj (List.findIdx_le_length p)
  rw [List.getD_eq_getElem _ _ hlen]
  exact List.not_of_lt_findIdx hj

theorem findIdx_spec_at {α : Type} (p : α → Bool) (l : List α) (d : α)
    (h : l.findIdx p < l.length) : p (l.getD (l.findIdx p) d) = true := by
  rw [List.getD_eq_getElem _ _ h]
  exact List.findIdx_getElem

theorem pyStrip_idem (s : Str) : pyStrip (pyStrip s) = pyStrip s := by
  unfold pyStrip
  have h1 : List.dropWhile isWS (List.rdropWhile isWS (List.dropWhile isWS s)) =
      List.rdropWhile isWS (List.dropWhile isWS s) := by
    rw [List.dropWhile_eq_self_iff]
    intro hl
    obtain ⟨v, hv⟩ := List.rdropWhile_prefix isWS (List.dropWhile isWS s)
    have hlen0 : 0 < (List.dropWhile isWS s).length := by
      have := congrArg List.length hv
      simp only [List.length_append] at this
      omega
    have e1 : (List.rdropWhile isWS (List.dropWhile isWS s))[0]? =
        (List.dropWhile isWS s)[0]? := by
      conv_rhs => rw [← hv]
      exact (List.getElem?_append_left hl).symm
    have e3 : (List.rdropWhile isWS (List.dropWhile isWS s)).get ⟨0, hl⟩ =
        (List.dropWhile isWS s).get ⟨0, hlen0⟩ := by
      have e2 := e1
      rw [List.getElem?_eq_getElem hl, List.getElem?_eq_getElem hlen0] at e2
      simpa [List.get_eq_getElem] using e2
    rw [e3]
    exact List.dropWhile_get_zero_not isWS s hlen0
  rw [h1, List.rdropWhile_idempotent]

theorem isUpperA_toLowerA (c : Char) : isUpperA (toLowerA c) = false := by
  unfold toLowerA
  by_cases h : c ∈ upperChars
  · rw [if_pos h]
    have h2 : c ∈ ['A', 'B', 'C', 'D', 'E', 'F', 'G', 'H', 'I', 'J', 'K', 'L', 'M',
        'N', 'O', 'P', 'Q', 'R', 'S', 'T', 'U', 'V', 'W', 'X', 'Y', 'Z'] := h
    fin_cases h2 <;> decide
  · rw [if_neg h]
    unfold isUpperA
    exact decide_eq_false h

theorem upper3_of_no_upper (s : Str) (h : ∀ c ∈ s, isUpperA c = false) :
    upper3 s = false := by
  match s with
  | [] => rfl
  | [a] => rfl
  | [a, b] => rfl
  | a :: b :: c :: r => simp [upper3, h a (by simp)]

theorem matchDigitsUpper_of_no_upper (s : Str) (h : ∀ c ∈ s, isUpperA c = false) :
    matchDigitsUpper s = false := by
  match s with
  | [] => rfl
  | [c] => rfl
  | c0 :: c1 :: rest =>
    have h1 : upper3 rest = false :=
      upper3_of_no_upper rest (fun c hc => h c (by simp [hc]))
    have h2 : spaceThenUpper3 rest = false := by
      cases rest with
      | nil => rfl
      | cons c2 r2 =>
        have h3 : upper3 r2 = false :=
          upper3_of_no_upper r2 (fun c hc => h c (by simp [hc]))
        simp [spaceThenUpper3, h3]
    simp only [matchDigitsUpper]
    rw [h1, h2]
    simp

theorem matchDigitsUpper_pyLower (t : Str) : matchDigitsUpper (pyLower t) = false := by
  apply matchDigitsUpper_of_no_upper
  intro c hc
  unfold pyLower at hc
  obtain ⟨d, _, rfl⟩ := List.mem_map.mp hc
  exact isUpperA_toLowerA d

theorem determineLevel_cases (t : Str) :
    determineLevel t = str "H1" ∨ determineLevel t = str "H2" := by
  simp only [determineLevel]
  split
  · exact Or.inl rfl
  · split
    · exact Or.inr rfl
    · exact Or.inr rfl

theorem refineGo_invariant (secs : List RawCand) (seen : List Str) :
    (∀ r ∈ refineGo secs seen, pyStrip r.text = r.text ∧ 3 ≤ r.text.length ∧
        r.text.length ≤ 150 ∧ (r.level = str "H1" ∨ r.level = str "H2") ∧
        r.text ∉ seen) ∧
    (refineGo secs seen).Pairwise (fun a b => a.text ≠ b.text) := by
  induction secs generalizing seen with
  | nil => simp [refineGo]
  | cons sec rest ih =>
    simp only [refineGo]
    split
    next hc => exact ih seen
    next hc =>
      push_neg at hc
      obtain ⟨hmem, hlen⟩ := hc
      split
      next => exact ih seen
      next =>
        split
        next => exact ih seen
        next =>
          constructor
          · intro r hr
            rcases List.mem_cons.mp hr with rfl | hr2
            · exact ⟨pyStrip_idem sec.text, hlen.1, hlen.2, determineLevel_cases _, hmem⟩
            · have h5 := (ih (pyStrip sec.text :: seen)).1 r hr2
              exact ⟨h5.1, h5.2.1, h5.2.2.1, h5.2.2.2.1,
                fun hmem2 => h5.2.2.2.2 (List.mem_cons_of_mem _ hmem2)⟩
          · rw [List.pairwise_cons]
            refine ⟨?_, (ih (pyStrip sec.text :: seen)).2⟩
            intro b hb
            have h5 := ((ih (pyStrip sec.text :: seen)).1 b hb).2.2.2.2
            intro heq
            exact h5 (by rw [← heq]; exact List.mem_cons_self _ _)

theorem filterMap_if {α β : Type} (p : α → Prop) [DecidablePred p] (f : α → β) (l : List α) :
    l.filterMap (fun a => if p a then some (f a) else none) =
      (l.filter (fun a => decide (p a))).map f := by
  induction l with
  | nil => rfl
  | cons a t ih =>
    by_cases h : p a <;> simp [List.filterMap_cons, List.filter_cons, h, ih]

theorem domainBonuses_nonneg (persona text : Str) : 0 ≤ domainBonuses persona text := by
  simp only [domainBonuses]
  apply le_min
  · apply add_nonneg
    apply add_nonneg
    all_goals split
    all_goals positivity
  · norm_num

theorem domainBonuses_le (persona text : Str) : domainBonuses persona text ≤ 3/10 := by
  simp only [domainBonuses]
  exact min_le_right _ _

/-- C3: for every section, persona text and persona/job keyword set, the
relevance score lies in the closed interval [0,1], and the domain bonus
added before the final cap is between 0 and 0.30 even when several persona
trigger categories fire. -/
theorem C3_score_bounds (persona : Str) (personaKw jobKw : List Str)
    (sec : PSection) (text : Str) :
    0 ≤ calcRelevanceScore persona personaKw jobKw sec ∧
    calcRelevanceScore persona personaKw jobKw sec ≤ 1 ∧
    0 ≤ domainBonuses persona text ∧ domainBonuses persona text ≤ 3/10 := by
  refine ⟨?_, ?_, domainBonuses_nonneg persona text, domainBonuses_le persona text⟩
  · simp only [calcRelevanceScore]
    apply le_min
    · refine add_nonneg (add_nonneg ?_ ?_) (domainBonuses_nonneg _ _)
      · apply mul_nonneg (by norm_num)
        apply div_nonneg (by positivity) (by positivity)
      · apply mul_nonneg (by norm_num)
        apply div_nonneg (by positivity) (by positivity)
    · norm_num
  · simp only [calcRelevanceScore]
    exact min_le_right _ _

/-- C2: the cross-document ranker keeps exactly the sections scoring above
0.1, orders them by pre-overwrite score descending with stable ties, and
overwrites the rank field with the 1-based position, so the ranks of the
emitted list are exactly 1, 2, ..., n. -/
theorem C2_ranker (persona job : Str) (docs : List DocContent) :
    (extractRelevantSections persona job docs).map RankedSection.importanceRank =
      List.range' 1 (extractRelevantSections persona job docs).length ∧
    (sortDesc ScoredSection.score (keptSections persona job docs)).Pairwise
      (fun x y => y.score ≤ x.score) ∧
    List.Perm (sortDesc ScoredSection.score (keptSections persona job docs))
      (keptSections persona job docs) ∧
    (∀ q : ℚ, (sortDesc ScoredSection.score (keptSections persona job docs)).filter
        (fun x => decide (x.score = q)) =
      (keptSections persona job docs).filter (fun x => decide (x.score = q))) ∧
    keptSections persona job docs = docs.flatMap (fun d =>
      (d.sections.filter (fun s => decide ((1 : ℚ)/10 <
          calcRelevanceScore persona (extractKeywords persona) (extractKeywords job) s))).map
        (fun s => ⟨d.filename, s.page, s.text,
          calcRelevanceScore persona (extractKeywords persona) (extractKeywords job) s⟩)) ∧
    extractRelevantSections persona job docs =
      (sortDesc ScoredSection.score (keptSections persona job docs)).enum.map
        (fun p => ⟨p.2.document, p.2.page, p.2.sectionTitle, p.1 + 1⟩) := by
  refine ⟨?_, sortDesc_pairwise _ _, sortDesc_perm _ _,
    fun q => sortDesc_filter_key _ q _, ?_, rfl⟩
  · simp only [extractRelevantSections]
    rw [List.map_map]
    have h1 : (RankedSection.importanceRank ∘ fun p : Nat × ScoredSection =>
        (⟨p.2.document, p.2.page, p.2.sectionTitle, p.1 + 1⟩ : RankedSection)) =
        (fun p : Nat × ScoredSection => p.1 + 1) := rfl
    rw [h1, List.enum_eq_enumFrom, enumFrom_map_fst_succ]
    simp [List.length_map, List.enum_length]
  · simp only [keptSections]
    induction docs with
    | nil => rfl
    | cons d rest ih =>
      simp only [List.flatMap_cons]
      rw [filterMap_if (fun s => (1 : ℚ)/10 <
            calcRelevanceScore persona (extractKeywords persona) (extractKeywords job) s)
          (fun s => (⟨d.filename, s.page, s.text,
            calcRelevanceScore persona (extractKeywords persona)
              (extractKeywords job) s⟩ : ScoredSection)), ih]

/-- C1 (amended): every entry of extracted_sections originates from the raw
formatting-based section list of some processed document and scored above
0.1; the pipeline does not restrict scoring to the Segmenter output. -/
theorem C1_provenance (persona job : Str) (docs : List DocContent) (r : RankedSection)
    (hr : r ∈ extractRelevantSections persona job docs) :
    ∃ d, d ∈ docs ∧ ∃ s, s ∈ d.sections ∧
      r.document = d.filename ∧ r.page = s.page ∧ r.sectionTitle = s.text ∧
      (1 : ℚ)/10 < calcRelevanceScore persona (extractKeywords persona)
        (extractKeywords job) s := by
  simp only [extractRelevantSections] at hr
  obtain ⟨p, hp, hgp⟩ := List.mem_map.mp hr
  have hp2 : p.2 ∈ sortDesc ScoredSection.score (keptSections persona job docs) := by
    have h0 := List.mem_map_of_mem Prod.snd hp
    rwa [List.enum_map_snd] at h0
  have hk : p.2 ∈ keptSections persona job docs :=
    (sortDesc_perm ScoredSection.score _).mem_iff.mp hp2
  simp only [keptSections, List.mem_flatMap, List.mem_filterMap] at hk
  obtain ⟨d, hd, s, hs, hif⟩ := hk
  refine ⟨d, hd, s, hs, ?_⟩
  by_cases hlt : (1 : ℚ)/10 < calcRelevanceScore persona (extractKeywords persona)
      (extractKeywords job) s
  · rw [if_pos hlt] at hif
    have heq := Option.some.inj hif
    refine ⟨?_, ?_, ?_, hlt⟩ <;> rw [← hgp, ← heq]
  · rw [if_neg hlt] at hif
    exact absurd hif (by simp)

/-- C1 counterexample: a candidate whose text is rejected by the Segmenter
(here the 2-character text Hi) is nevertheless scored and emitted in
extracted_sections, so the scored sections are not Segmenter output. -/
theorem C1_counterexample :
    extractRelevantSections (str "") (str "alpha beta")
        (extractDocumentContents [(str "doc1", DocOutcome.ok
          ⟨⟨true, [⟨str "Hi", 1⟩], str "Hi\nalpha beta", str "Some Doc Title", []⟩,
           [str "Hi\nalpha beta"], [⟨str "Hi", 1⟩], str "Hi\nalpha beta"⟩)]) =
      [⟨str "doc1", 1, str "Hi", 1⟩] ∧
    refineSections [⟨str "Hi", 1⟩] = [] := by
  exact ⟨by decide, by decide⟩

/-- C1 witness: the provenance theorem applied to the concrete pipeline run. -/
theorem C1_witness :
    (⟨str "doc1", 1, str "Hi", 1⟩ : RankedSection) ∈
      extractRelevantSections (str "") (str "alpha beta")
        (extractDocumentContents [(str "doc1", DocOutcome.ok
          ⟨⟨true, [⟨str "Hi", 1⟩], str "Hi\nalpha beta", str "Some Doc Title", []⟩,
           [str "Hi\nalpha beta"], [⟨str "Hi", 1⟩], str "Hi\nalpha beta"⟩)]) ∧
    (∃ d, d ∈ extractDocumentContents [(str "doc1", DocOutcome.ok
          ⟨⟨true, [⟨str "Hi", 1⟩], str "Hi\nalpha beta", str "Some Doc Title", []⟩,
           [str "Hi\nalpha beta"], [⟨str "Hi", 1⟩], str "Hi\nalpha beta"⟩)] ∧
      ∃ s, s ∈ d.sections ∧
        (⟨str "doc1", 1, str "Hi", 1⟩ : RankedSection).document = d.filename ∧
        (⟨str "doc1", 1, str "Hi", 1⟩ : RankedSection).page = s.page ∧
        (⟨str "doc1", 1, str "Hi", 1⟩ : RankedSection).sectionTitle = s.text ∧
        (1 : ℚ)/10 < calcRelevanceScore (str "") (extractKeywords (str ""))
          (extractKeywords (str "alpha beta")) s) :=
  ⟨by decide, C1_provenance _ _ _ _ (by decide)⟩

/-- C4 (amended): outline records produced by the Segmenter path satisfy the
HeadingRecord invariant (trimmed text of 3 to 150 characters, level H1 or
H2, pairwise distinct texts); fallback label-scan records always carry
level H2 and page 1 but need not satisfy the length or uniqueness parts. -/
theorem C4_invariant (L : Loader) (hload : L.loadOk = true)
    (hne : refineSections L.sections ≠ []) :
    (∀ r ∈ (extractStructure L).outline,
        pyStrip r.text = r.text ∧ 3 ≤ r.text.length ∧ r.text.length ≤ 150 ∧
        (r.level = str "H1" ∨ r.level = str "H2")) ∧
    ((extractStructure L).outline).Pairwise (fun a b => a.text ≠ b.text) ∧
    (∀ t : Str, ∀ r ∈ fallbackExtractLabels t, r.level = str "H2" ∧ r.page = 1) := by
  have houtline : (extractStructure L).outline = refineSections L.sections := by
    simp [extractStructure, hload, hne]
  refine ⟨?_, ?_, ?_⟩
  · rw [houtline]
    intro r hr
    have h5 := (refineGo_invariant L.sections []).1 r hr
    exact ⟨h5.1, h5.2.1, h5.2.2.1, h5.2.2.2.1⟩
  · rw [houtline]
    exact (refineGo_invariant L.sections []).2
  · intro t r hr
    simp only [fallbackExtractLabels, List.mem_filterMap] at hr
    obtain ⟨l, _, hl⟩ := hr
    split at hl
    · have h6 := Option.some.inj hl
      rw [← h6]
      exact ⟨rfl, rfl⟩
    · exact absurd hl (by simp)

/-- C4 counterexample: the fallback label scan emits, for a first page that
repeats the line A colon, two identical records of text length 1, breaking
both the 3 to 150 length bound and the uniqueness invariant. -/
theorem C4_counterexample :
    (extractStructure ⟨true, [], str "A:\nA:", str "Good Meta Title", []⟩).outline =
      [⟨str "H2", str "A", 1⟩, ⟨str "H2", str "A", 1⟩] ∧
    ¬ (3 ≤ (str "A").length) ∧
    ¬ ((extractStructure ⟨true, [], str "A:\nA:", str "Good Meta Title", []⟩).outline).Pairwise
        (fun a b => a.text ≠ b.text) := by
  exact ⟨by decide, by decide, by decide⟩

/-- C4 witness: the invariant theorem applied to a loader whose single
candidate INTRODUCTION survives the Segmenter. -/
theorem C4_witness :
    (∀ r ∈ (extractStructure ⟨true, [⟨str "INTRODUCTION", 1⟩], str "", str "", []⟩).outline,
        pyStrip r.text = r.text ∧ 3 ≤ r.text.length ∧ r.text.length ≤ 150 ∧
        (r.level = str "H1" ∨ r.level = str "H2")) ∧
    ((extractStructure ⟨true, [⟨str "INTRODUCTION", 1⟩], str "", str "", []⟩).outline).Pairwise
      (fun a b => a.text ≠ b.text) ∧
    (∀ t : Str, ∀ r ∈ fallbackExtractLabels t, r.level = str "H2" ∧ r.page = 1) :=
  C4_invariant _ rfl (by decide)

/-- C5: the claim that date-like candidates such as 12 JAN are rejected is
wrong on the code: the date alternative of the noise regex is matched
against the lowercased text, where three uppercase letters can never occur,
so the branch is dead and 12 JAN is emitted as an H2 heading. -/
theorem C5_dead_date_branch :
    (∀ t : Str, matchDigitsUpper (pyLower t) = false) ∧
    refineSections [⟨str "12 JAN", 1⟩] = [⟨str "H2", str "12 JAN", 1⟩] :=
  ⟨matchDigitsUpper_pyLower, by decide⟩

/-- C6 (amended): a filtered candidate ending in a colon with at most 8
words always gets importance at least 1; its level is H2 unless its
lowercased text contains one of the H1 trigger phrases (overview of,
introduction to, references), in which case it is H1. -/
theorem C6_colon_labels (t : Str) (h0 : pyStrip t = t) (h1 : 3 ≤ t.length)
    (h2 : t.length ≤ 150) (h3 : noiseFilter (pyLower t) = false)
    (h4 : endsWithColon t = true) (h5 : (pyWords t).length ≤ 8) :
    1 ≤ calcImportance t ∧
    determineLevel t =
      (if h1Terms.any (fun k => containsSub k (pyLower t)) then str "H1" else str "H2") := by
  constructor
  · simp only [calcImportance]
    split
    · norm_num
    · rw [if_pos]
      · simp [h4, h5]
  · simp only [determineLevel]
    split
    next hh => rfl
    next hh => split <;> rfl

/-- C6 counterexample: the candidate Overview of Results with a trailing
colon satisfies every hypothesis of the claim yet is assigned level H1,
not H2, because it contains the H1 trigger phrase overview of. -/
theorem C6_counterexample :
    pyStrip (str "Overview of Results:") = str "Overview of Results:" ∧
    3 ≤ (str "Overview of Results:").length ∧
    (str "Overview of Results:").length ≤ 150 ∧
    noiseFilter (pyLower (str "Overview of Results:")) = false ∧
    endsWithColon (str "Overview of Results:") = true ∧
    (pyWords (str "Overview of Results:")).length ≤ 8 ∧
    determineLevel (str "Overview of Results:") = str "H1" ∧
    str "H1" ≠ str "H2" := by
  exact ⟨by decide, by decide, by decide, by decide, by decide, by decide,
    by decide, by decide⟩

/-- C6 witness: the amended theorem applied to the form label Name with a
trailing colon. -/
theorem C6_witness :
    1 ≤ calcImportance (str "Name:") ∧
    determineLevel (str "Name:") =
      (if h1Terms.any (fun k => containsSub k (pyLower (str "Name:")))
       then str "H1" else str "H2") :=
  C6_colon_labels _ (by decide) (by decide) (by decide) (by decide) (by decide) (by decide)

/-- C7 (amended): when the metadata title is empty, the extractor candidate
list is empty and the first-page heuristic scan yields no candidate line,
the resolved title is the text of the first outline entry. -/
theorem C7_title_cascade (L : Loader) (h : HeadingRecord) (rest : List HeadingRecord)
    (hmeta : L.metaTitle = []) (hcand : L.titleCandidates = [])
    (hscan : extractTitleFromText L.page0Text = []) :
    extractTitle L (h :: rest) = h.text := by
  simp [extractTitle, hmeta, hcand, hscan, pyStrip]

/-- C7 counterexample: with an empty metadata title, no extractor
candidates, a first page without promotional keywords and a non-empty
outline, the title is taken from the first-page scan, not from the
outline, refuting the claim as stated. -/
theorem C7_counterexample :
    pyStrip (str "") = [] ∧
    promoWords.all (fun w => !containsSub w (pyLower (str "General discussion of topics"))) =
      true ∧
    extractTitle ⟨true, [], str "General discussion of topics", str "", []⟩
        [⟨str "H1", str "INTRODUCTION", 1⟩] = str "General discussion of topics" ∧
    str "General discussion of topics" ≠ str "INTRODUCTION" := by
  exact ⟨by decide, by decide, by decide, by decide⟩

/-- C7 witness: the amended cascade theorem applied to an empty first page
and the single outline entry Intro. -/
theorem C7_witness :
    extractTitle ⟨true, [], str "", str "", []⟩ [⟨str "H2", str "Intro", 1⟩] =
      (⟨str "H2", str "Intro", 1⟩ : HeadingRecord).text :=
  C7_title_cascade _ _ _ rfl rfl (by decide)

/-- C8: a document the loader cannot open yields the structured Error
object in the single-document pipeline, and in the multi-document pipeline
failing or raising documents are skipped while the others are processed in
order, so the result is exactly the processed successes. -/
theorem C8_error_handling :
    (∀ L : Loader, L.loadOk = false →
      extractStructure L = ⟨str "Error", [], some (str "Failed to load PDF")⟩) ∧
    (∀ files : List (Str × DocOutcome),
      extractDocumentContents files = files.filterMap (fun f =>
        match f.2 with
        | DocOutcome.ok st => some (buildDoc f.1 st)
        | DocOutcome.loadFail => none
        | DocOutcome.raised _ => none)) := by
  constructor
  · intro L h
    simp [extractStructure, h]
  · intro files
    induction files with
    | nil => rfl
    | cons f rest ih =>
      obtain ⟨n, o⟩ := f
      cases o <;> simp [extractDocumentContents, List.filterMap_cons, ih]

/-- C8 witness: the error-handling theorem applied to a failing loader and
to a batch with one load failure, one exception and one success. -/
theorem C8_witness :
    extractStructure ⟨false, [⟨str "Intro", 1⟩], str "x", str "Meta", []⟩ =
      ⟨str "Error", [], some (str "Failed to load PDF")⟩ ∧
    extractDocumentContents
        [(str "a", DocOutcome.loadFail),
         (str "b", DocOutcome.raised (str "boom")),
         (str "c", DocOutcome.ok ⟨⟨true, [], str "", str "Meta Title X", []⟩, [], [], []⟩)] =
      [buildDoc (str "c") ⟨⟨true, [], str "", str "Meta Title X", []⟩, [], [], []⟩] :=
  ⟨C8_error_handling.1 _ rfl, (C8_error_handling.2 _).trans (by decide)⟩

/-- C9 (amended): when the section title is found at line s, the content
span ends at the first later line whose stripped text is longer than 3
characters and looks like a heading, where the heading test also requires
at most 150 characters; the returned content is the stripped join of the
lines strictly between the start line and that boundary. -/
theorem C9_content_boundary (pageText title : Str) (s : Nat)
    (hs : (splitLines pageText).findIdx? (fun line =>
        containsSub (pyLower title) (pyLower line)) = some s) :
    ∃ e, s < e ∧ e ≤ (splitLines pageText).length ∧
      (∀ j, s < j → j < e → boundaryLine ((splitLines pageText).getD j []) = false) ∧
      (e < (splitLines pageText).length →
        boundaryLine ((splitLines pageText).getD e []) = true) ∧
      extractSectionContent pageText title =
        pyStrip (List.intercalate ['\n']
          (((splitLines pageText).drop (s + 1)).take (e - (s + 1)))) := by
  have hslen : s < (splitLines pageText).length :=
    (List.findIdx?_eq_some_iff_findIdx_eq.mp hs).1
  have hfle : ((splitLines pageText).drop (s + 1)).findIdx boundaryLine ≤
      ((splitLines pageText).drop (s + 1)).length := List.findIdx_le_length boundaryLine
  have hdlen : ((splitLines pageText).drop (s + 1)).length =
      (splitLines pageText).length - (s + 1) := List.length_drop _ _
  refine ⟨s + 1 + ((splitLines pageText).drop (s + 1)).findIdx boundaryLine,
    by omega, by omega, ?_, ?_, ?_⟩
  · intro j hj1 hj2
    have hlt : j - (s + 1) < ((splitLines pageText).drop (s + 1)).findIdx boundaryLine := by
      omega
    have hb := findIdx_spec_before boundaryLine ((splitLines pageText).drop (s + 1))
      (j - (s + 1)) [] hlt
    rw [getD_drop_eq] at hb
    have hje : s + 1 + (j - (s + 1)) = j := by omega
    rwa [hje] at hb
  · intro he
    have hlt : ((splitLines pageText).drop (s + 1)).findIdx boundaryLine <
        ((splitLines pageText).drop (s + 1)).length := by
      omega
    have hb := findIdx_spec_at boundaryLine ((splitLines pageText).drop (s + 1)) [] hlt
    rwa [getD_drop_eq] at hb
  · have h3 : s + 1 + ((splitLines pageText).drop (s + 1)).findIdx boundaryLine - (s + 1) =
        ((splitLines pageText).drop (s + 1)).findIdx boundaryLine := by omega
    rw [h3]
    simp only [extractSectionContent]
    rw [hs]

set_option maxRecDepth 40000 in
/-- C9 counterexample: an all-caps line of 160 characters matches the
all-caps heading shape and is longer than 3 characters, yet it does not
terminate the span because the heading test also rejects lines longer than
150 characters; the code returns that line as content where the claim
predicts an empty span. -/
theorem C9_counterexample :
    3 < (List.replicate 160 'A').length ∧
    matchAllCaps (List.replicate 160 'A') = true ∧
    pyStrip (List.replicate 160 'A') = List.replicate 160 'A' ∧
    extractSectionContent
        (str "My Section\n" ++ List.replicate 160 'A' ++ str "\nSHORT HEAD")
        (str "My Section") = List.replicate 160 'A' := by
  exact ⟨by decide, by decide, by decide, by decide⟩

/-- C9 witness: the boundary theorem applied to a page where the numbered
heading 1. Next ends the span after one body line. -/
theorem C9_witness :
    ∃ e, 0 < e ∧ e ≤ (splitLines (str "Alpha One\nbody text here\n1. Next")).length ∧
      (∀ j, 0 < j → j < e →
        boundaryLine ((splitLines (str "Alpha One\nbody text here\n1. Next")).getD j []) =
          false) ∧
      (e < (splitLines (str "Alpha One\nbody text here\n1. Next")).length →
        boundaryLine ((splitLines (str "Alpha One\nbody text here\n1. Next")).getD e []) =
          true) ∧
      extractSectionContent (str "Alpha One\nbody text here\n1. Next") (str "Alpha One") =
        pyStrip (List.intercalate ['\n']
          (((splitLines (str "Alpha One\nbody text here\n1. Next")).drop (0 + 1)).take
            (e - (0 + 1)))) :=
  C9_content_boundary _ _ 0 (by decide)

/-- C10: the outline pipeline is deterministic: two loader states that
agree on every observation the pipeline reads produce identical results. -/
theorem C10_deterministic (L1 L2 : Loader) (h1 : L1.loadOk = L2.loadOk)
    (h2 : L1.sections = L2.sections) (h3 : L1.page0Text = L2.page0Text)
    (h4 : L1.metaTitle = L2.metaTitle) (h5 : L1.titleCandidates = L2.titleCandidates) :
    extractStructure L1 = extractStructure L2 := by
  have he : L1 = L2 := by
    cases L1
    cases L2
    simp_all
  rw [he]

/-- C10 witness: determinism applied to a concrete loader state. -/
theorem C10_witness :
    extractStructure ⟨true, [⟨str "INTRODUCTION", 1⟩], str "Name:", str "", []⟩ =
      extractStructure ⟨true, [⟨str "INTRODUCTION", 1⟩], str "Name:", str "", []⟩ :=
  C10_deterministic _ _ rfl rfl rfl rfl rfl

end Adobe1B
